import Mathlib

/-!
Shallow embedding of the Rainow core (src/app.py): the Indicator Engine
`calculate_technical_indicators` (lines 32-76) and the Decision Engine
`rainow_brain` (lines 78-223).

Modelling conventions:
* pandas float columns become `List ℚ`; a column cell that pandas would hold
  as `NaN` (rolling-window warm-up, division `0/0` on all-zero volume windows)
  becomes `Option ℚ` with `none` for the undefined cells.  For data satisfying
  the OHLCV invariant (all prices and volumes nonnegative) a zero denominator
  forces a zero numerator, so `none` exactly models the `NaN` the source
  produces there.
* A dataframe is its list of OHLCV rows plus, when `calculate_technical_indicators`
  has added them, the derived columns; `derived = none` models the columns
  being absent (the `len < 20` early return on line 33-34).
* Python `float` arithmetic is modelled exactly over `ℚ`.
* The f-string reasons of the source carry a formatted number; they are
  modelled as tagged values carrying the quantity that the string interpolates.
* The intraday frame `rt_data` only contributes its last `Close` cell and a
  timestamp used for the label; it is modelled as the list of its Close cells
  (`Option ℚ` since the cell may be `NaN`), and the timezone-formatted label
  (line 107) is modelled by the plain label of line 109.
* A Python `TypeError` (comparing a number against `None` on line 161 when
  `targetHighPrice` is absent) is modelled by the Decision Engine returning
  `none`.
-/

/-- One OHLCV row of the daily dataframe. -/
structure Bar where
  Open : ℚ
  High : ℚ
  Low : ℚ
  Close : ℚ
  Volume : ℚ
deriving DecidableEq

instance : Inhabited Bar := ⟨⟨0, 0, 0, 0, 0⟩⟩

/-- The data-model invariant of the spec: High ≥ max(Open,Close) ≥
min(Open,Close) ≥ Low ≥ 0 and Volume ≥ 0. -/
def ValidBar (b : Bar) : Prop :=
  max b.Open b.Close ≤ b.High ∧ b.Low ≤ min b.Open b.Close ∧ 0 ≤ b.Low ∧ 0 ≤ b.Volume

instance (b : Bar) : Decidable (ValidBar b) := by unfold ValidBar; infer_instance

/-- Typical price `(High + Low + Close) / 3` (src/app.py lines 39 and 44). -/
def tpOf (b : Bar) : ℚ := (b.High + b.Low + b.Close) / 3

/-- Trailing-window sum of pandas `rolling(window=w).sum()` at row `i`:
`NaN` (here `none`) while fewer than `w` rows are available. -/
def windowSum (w : ℕ) (xs : List ℚ) (i : ℕ) : Option ℚ :=
  if i + 1 < w then none else some (((xs.drop (i + 1 - w)).take w).sum)

/-- The whole column `xs.rolling(window=w).sum()`. -/
def rollingSum (w : ℕ) (xs : List ℚ) : List (Option ℚ) :=
  (List.range xs.length).map (windowSum w xs)

/-- Positive money flow column (src/app.py lines 47-52): row 0 is 0; row `i`
is `TypicalPrice[i]·Volume[i]` when the typical price strictly rose, else 0. -/
def posFlow (bars : List Bar) : List ℚ :=
  (List.range bars.length).map fun i =>
    if i = 0 then 0
    else if tpOf (bars.getD (i - 1) default) < tpOf (bars.getD i default) then
      tpOf (bars.getD i default) * (bars.getD i default).Volume
    else 0

/-- Negative money flow column (src/app.py lines 47-49 and 53-54). -/
def negFlow (bars : List Bar) : List ℚ :=
  (List.range bars.length).map fun i =>
    if i = 0 then 0
    else if tpOf (bars.getD i default) < tpOf (bars.getD (i - 1) default) then
      tpOf (bars.getD i default) * (bars.getD i default).Volume
    else 0

/-- The `PV = TP * Volume` column (src/app.py line 40). -/
def pvList (bars : List Bar) : List ℚ := bars.map fun b => tpOf b * b.Volume

/-- The `Volume` column. -/
def volList (bars : List Bar) : List ℚ := bars.map Bar.Volume

/-- One cell of `Rolling_VWAP_10D` (src/app.py line 41):
`PV.rolling(10).sum() / Volume.rolling(10).sum()` at row `i`, undefined during
warm-up and on an all-zero volume window (pandas `0/0 = NaN`). -/
def vwapCell (bars : List Bar) (i : ℕ) : Option ℚ :=
  match windowSum 10 (pvList bars) i, windowSum 10 (volList bars) i with
  | some a, some b => if b = 0 then none else some (a / b)
  | _, _ => none

/-- `Rolling_VWAP_10D` column (src/app.py lines 39-41). -/
def vwapList (bars : List Bar) : List (Option ℚ) :=
  (List.range bars.length).map (vwapCell bars)

/-- One cell of `MFI` (src/app.py lines 56-61): 14-bar flow sums,
`NegMF.replace(0, 1)` as denominator guard, `100 - 100/(1 + ratio)`. -/
def mfiCell (bars : List Bar) (i : ℕ) : Option ℚ :=
  match (rollingSum 14 (posFlow bars)).getD i none,
      (rollingSum 14 (negFlow bars)).getD i none with
  | some p, some n =>
    let d := if n = 0 then 1 else n
    if 1 + p / d = 0 then none else some (100 - 100 / (1 + p / d))
  | _, _ => none

/-- `MFI` column (src/app.py lines 56-61). -/
def mfiList (bars : List Bar) : List (Option ℚ) :=
  (List.range bars.length).map (mfiCell bars)

/-- `Is_Hammer` for one row (src/app.py lines 66-69):
`lower_shadow ≥ 2·body` and `upper_shadow ≤ 0.5·body`. -/
def isHammer (b : Bar) : Bool :=
  let body := |b.Close - b.Open|
  let lower := min b.Open b.Close - b.Low
  let upper := b.High - max b.Open b.Close
  decide (body * 2 ≤ lower) && decide (upper ≤ body * (1/2))

/-- `Is_Engulfing` at row `i` (src/app.py lines 71-74); row 0 compares against
the shifted `NaN` cells, which is `False` in pandas. -/
def isEngulfingAt (bars : List Bar) (i : ℕ) : Bool :=
  if i = 0 then false
  else
    let c := bars.getD i default
    let p := bars.getD (i - 1) default
    decide (c.Open < c.Close) && decide (c.Open < p.Close) &&
      decide (p.Open < c.Close) && decide (p.Close < p.Open)

/-- The derived columns added by the Indicator Engine. -/
structure Derived where
  TP : List ℚ
  Rolling_VWAP_10D : List (Option ℚ)
  PosMF : List (Option ℚ)
  NegMF : List (Option ℚ)
  MFI : List (Option ℚ)
  MFI_Divergence : List Bool
  Is_Hammer : List Bool
  Is_Engulfing : List Bool
deriving DecidableEq

/-- A daily dataframe: its OHLCV rows, and the derived columns when present
(`none` = the columns were never added). -/
structure DataFrame where
  bars : List Bar
  derived : Option Derived
deriving DecidableEq

/-- `calculate_technical_indicators` (src/app.py lines 32-76).  For fewer than
20 rows (empty included) the input rows come back unmodified with no derived
columns; otherwise all derived columns are added. -/
def calculate_technical_indicators (bars : List Bar) : DataFrame :=
  if bars.length < 20 then ⟨bars, none⟩
  else
    ⟨bars, some
      { TP := bars.map tpOf
        Rolling_VWAP_10D := vwapList bars
        PosMF := rollingSum 14 (posFlow bars)
        NegMF := rollingSum 14 (negFlow bars)
        MFI := mfiList bars
        MFI_Divergence := (mfiList bars).map fun m =>
          match m with
          | some x => decide (x < 25)
          | none => false
        Is_Hammer := bars.map isHammer
        Is_Engulfing := (List.range bars.length).map (isEngulfingAt bars) }⟩

/-- Row getter for `Rolling_VWAP_10D` as used on src/app.py lines 87 and 90:
`.get('Rolling_VWAP_10D', 0)` gives 0 when the column is absent; a present but
`NaN` cell is replaced by the daily `Close`. -/
def vwapUsed (df : DataFrame) (close : ℚ) : ℚ :=
  match df.derived with
  | none => 0
  | some d => (d.Rolling_VWAP_10D.getLastD none).getD close

/-- Row getter for `MFI` as used on src/app.py lines 88-89: `.get('MFI', 50)`
gives 50 when the column is absent; a present but `NaN` cell becomes 50. -/
def mfiUsed (df : DataFrame) : ℚ :=
  match df.derived with
  | none => 50
  | some d => (d.MFI.getLastD none).getD 50

/-- `latest_daily.get('Is_Hammer')` (src/app.py line 182): `None` (falsy) when
the column is absent, else the last cell. -/
def lastHammer (df : DataFrame) : Bool :=
  match df.derived with
  | none => false
  | some d => d.Is_Hammer.getLastD false

/-- `latest_daily.get('Is_Engulfing')` (src/app.py line 182). -/
def lastEngulfing (df : DataFrame) : Bool :=
  match df.derived with
  | none => false
  | some d => d.Is_Engulfing.getLastD false

/-- `latest_daily.get('MFI_Divergence')` (src/app.py line 185). -/
def lastMfiDiv (df : DataFrame) : Bool :=
  match df.derived with
  | none => false
  | some d => d.MFI_Divergence.getLastD false

/-- The optional fields the Decision Engine reads from the yfinance `info`
record (src/app.py lines 112-113 and 124-127). -/
structure Info where
  targetLowPrice : Option ℚ
  targetHighPrice : Option ℚ
  earningsGrowth : Option ℚ
  revenueGrowth : Option ℚ
deriving DecidableEq

/-- Valuation band and source label (src/app.py lines 112-121).  The high
bound stays optional: it is `None` when analyst targets carry a low but no
high target. -/
structure ValBand where
  low : ℚ
  high : Option ℚ
  source : String
deriving DecidableEq

/-- The `data` dict echoed by every non-error verdict
(src/app.py lines 144-153 and 213-222). -/
structure VData where
  price : ℚ
  vwap : ℚ
  val_low : ℚ
  val_high : Option ℚ
  eps : ℚ
  val_source : String
  mfi : ℚ
  price_src : String
deriving DecidableEq

/-- A reason string of the Decision Engine, modelled as a tag carrying the
number the source interpolates into the f-string (src/app.py lines 143, 159,
162, 174, 176, 179, 184, 187). -/
inductive Reason where
  | negGrowth (g : ℚ)
  | undervalued
  | overvalued
  | supportHeld
  | aboveVwap (bias : ℚ)
  | belowVwap (bias : ℚ)
  | reversal
  | mfiOversold
deriving DecidableEq

/-- Verdict label, severity color and advice text of one mapping branch
(src/app.py lines 190-205). -/
structure VerdictInfo where
  verdict : String
  color : String
  advice : String
deriving DecidableEq

/-- The dictionary returned by `rainow_brain`; `data = none` models the empty
`data` dict of the data-error return (src/app.py line 81). -/
structure Output where
  verdict : String
  color : String
  score : Int
  advice : String
  reasons : List Reason
  data : Option VData
deriving DecidableEq

/-- `df_daily.iloc[-1]` for the OHLCV fields (src/app.py line 84); only used
on nonempty histories. -/
def latestOf (hist : List Bar) : Bar := hist.getLastD default

/-- Current price (src/app.py lines 92-109): the last intraday Close when it
exists, is not `NaN` and is positive; otherwise the last daily Close. -/
def currentPriceOf (hist : List Bar) (rt : List (Option ℚ)) : ℚ :=
  match rt.getLast? with
  | some (some p) => if 0 < p then p else (latestOf hist).Close
  | _ => (latestOf hist).Close

/-- Price-source label (src/app.py lines 93, 107 and 109); the timezone
timestamp of line 107 is abstracted away. -/
def priceSourceOf (rt : List (Option ℚ)) : String :=
  match rt.getLast? with
  | some (some p) => if 0 < p then "即時報價" else "日線收盤價"
  | _ => "日線收盤價"

/-- `hist_daily['Close'].rolling(50).mean().iloc[-1]`, with the `NaN` case
(fewer than 50 rows) replaced by the current price (src/app.py lines 117-118). -/
def ma50Of (hist : List Bar) (cp : ℚ) : ℚ :=
  if hist.length < 50 then cp
  else ((hist.map Bar.Close).drop (hist.length - 50)).sum / 50

/-- Valuation band (src/app.py lines 112-121): analyst targets when
`targetLowPrice` is present, otherwise the ±20% band around the 50-day moving
average. -/
def valuationOf (hist : List Bar) (cp : ℚ) (info : Info) : ValBand :=
  match info.targetLowPrice with
  | some tl => ⟨tl, info.targetHighPrice, "華爾街分析師"⟩
  | none => ⟨ma50Of hist cp * (4/5), some (ma50Of hist cp * (6/5)), "50日均線推估"⟩

/-- Growth figure with its fallback chain (src/app.py lines 124-129):
earnings growth, then revenue growth, then the neutral 0.05. -/
def growthOf (info : Info) : ℚ :=
  match info.earningsGrowth with
  | some g => g
  | none =>
    match info.revenueGrowth with
    | some g => g
    | none => 1/20

/-- Valuation scoring (src/app.py lines 156-162).  `none` models the
`TypeError` raised by `current_price > None` when the high target is absent
and the low-target branch was not taken. -/
def valScore (cp : ℚ) (v : ValBand) : Option (Int × List Reason) :=
  if cp < v.low then some (3, [Reason.undervalued])
  else
    match v.high with
    | none => none
    | some th => if th < cp then some (-3, [Reason.overvalued]) else some (0, [])

/-- Institutional-cost-basis scoring (src/app.py lines 164-179), returning the
net score contribution and the reason it appends. -/
def vwapScore (cp vwap barLow : ℚ) : Int × List Reason :=
  let bias := if 0 < vwap then (cp - vwap) / vwap * 100 else 0
  if vwap < cp then
    if barLow ≤ vwap * (51/50) ∧ vwap < cp then (3, [Reason.supportHeld])
    else (1, [Reason.aboveVwap bias])
  else (-2, [Reason.belowVwap bias])

/-- Technical-signal scoring (src/app.py lines 181-187). -/
def techScore (df : DataFrame) : Int × List Reason :=
  let a : Int × List Reason :=
    if lastHammer df || lastEngulfing df then (2, [Reason.reversal]) else (0, [])
  if lastMfiDiv df then (a.1 + 2, a.2 ++ [Reason.mfiOversold]) else a

/-- Verdict mapping (src/app.py lines 190-205), in the source's branch order. -/
def verdictOf (score : Int) (above : Bool) : VerdictInfo :=
  if 6 ≤ score then
    ⟨"💎 強力買入 (Strong Buy)", "green", "完美風暴！估值便宜、機構護盤且有買訊。"⟩
  else if 3 ≤ score ∧ score ≤ 5 ∧ above = true then
    ⟨"🚀 右側追擊 (Trend Buy)", "blue", "趨勢強勢。資金動能強，適合順勢操作。"⟩
  else if 0 ≤ score ∧ score ≤ 2 then
    ⟨"👀 觀望/等待 (Wait)", "gray", "訊號不明。建議等待回落 VWAP 或更安全的價格。"⟩
  else
    ⟨"⚠️ 風險警示 (Warning)", "red", "風險過高。可能買在山頂或接到刀子。"⟩

/-- The `data` dict both return paths build (src/app.py lines 144-153 and
213-222): every value is fixed before the veto check runs. -/
def echoData (hist : List Bar) (rt : List (Option ℚ)) (info : Info) : VData :=
  { price := currentPriceOf hist rt
    vwap := vwapUsed (calculate_technical_indicators hist) (latestOf hist).Close
    val_low := (valuationOf hist (currentPriceOf hist rt) info).low
    val_high := (valuationOf hist (currentPriceOf hist rt) info).high
    eps := growthOf info
    val_source := (valuationOf hist (currentPriceOf hist rt) info).source
    mfi := mfiUsed (calculate_technical_indicators hist)
    price_src := priceSourceOf rt }

/-- Rules 2-5 of the Decision Engine (src/app.py lines 156-223): cumulative
scoring followed by the verdict mapping. -/
def scoredPath (hist : List Bar) (rt : List (Option ℚ)) (info : Info) : Option Output :=
  let df := calculate_technical_indicators hist
  let cp := currentPriceOf hist rt
  let vwap := vwapUsed df (latestOf hist).Close
  match valScore cp (valuationOf hist cp info) with
  | none => none
  | some sr1 =>
    let sr2 := vwapScore cp vwap (latestOf hist).Low
    let sr3 := techScore df
    let sc := sr1.1 + sr2.1 + sr3.1
    let vi := verdictOf sc (decide (vwap < cp))
    some
      { verdict := vi.verdict
        color := vi.color
        score := sc
        advice := vi.advice
        reasons := sr1.2 ++ sr2.2 ++ sr3.2
        data := some (echoData hist rt info) }

/-- `rainow_brain` (src/app.py lines 78-223): data-error return on an empty
history, growth veto, then the scored path. -/
def rainow_brain (hist : List Bar) (rt : List (Option ℚ)) (info : Info) : Option Output :=
  if hist.isEmpty then
    some
      { verdict := "❌ 數據錯誤", color := "red", score := 0
        advice := "無法取得歷史數據", reasons := [], data := none }
  else if growthOf info < -(1/20) then
    some
      { verdict := "☠️ 絕對迴避 (Avoid)", color := "inverse", score := -99
        advice := "業績預期衰退，基本面惡化，屬於價值陷阱。"
        reasons := [Reason.negGrowth (growthOf info)]
        data := some (echoData hist rt info) }
  else scoredPath hist rt info

/-- Modelled from the spec: the verdict-mapping priority order as section 4.2
rule 5 words it (score ≥ 6 → Strong Buy; otherwise 3 ≤ score ≤ 5 with
price > VWAP → Trend Buy; otherwise 0 ≤ score ≤ 2 → Wait; otherwise Warning),
for comparison with the source's `verdictOf`. -/
def verdictSpec (score : Int) (above : Bool) : String :=
  if 6 ≤ score then "💎 強力買入 (Strong Buy)"
  else if 3 ≤ score ∧ score ≤ 5 ∧ above = true then "🚀 右側追擊 (Trend Buy)"
  else if 0 ≤ score ∧ score ≤ 2 then "👀 觀望/等待 (Wait)"
  else "⚠️ 風險警示 (Warning)"

/-- Strictly rising typical price, row over row. -/
def StrictIncTP (bars : List Bar) : Prop :=
  ∀ j, j + 1 < bars.length →
    tpOf (bars.getD j default) < tpOf (bars.getD (j + 1) default)

/-- Strictly falling typical price, row over row. -/
def StrictDecTP (bars : List Bar) : Prop :=
  ∀ j, j + 1 < bars.length →
    tpOf (bars.getD (j + 1) default) < tpOf (bars.getD j default)

/-! ### Concrete fixtures used by witnesses and counterexamples -/

/-- A doji row with a lower shadow and no upper shadow. -/
def dojiBar : Bar := ⟨10, 10, 5, 10, 1⟩

/-- 20 doji rows: enough history for the Indicator Engine to run. -/
def dojiHist : List Bar := List.replicate 20 dojiBar

/-- A doji row with an upper shadow. -/
def dojiUpBar : Bar := ⟨10, 12, 9, 10, 1⟩

def dojiUpHist : List Bar := List.replicate 20 dojiUpBar

/-- Row `i` of a series whose typical price rises strictly. -/
def upBar (i : ℕ) : Bar := ⟨(i : ℚ) + 1, (i : ℚ) + 1, (i : ℚ) + 1, (i : ℚ) + 1, 1⟩

def upHist : List Bar := (List.range 20).map upBar

/-- A flat row: constant price 10, volume 1. -/
def evenBar : Bar := ⟨10, 10, 10, 10, 1⟩

def evenHist : List Bar := List.replicate 20 evenBar

/-- A flat row with zero volume. -/
def zvBar : Bar := ⟨10, 10, 10, 10, 0⟩

def zvHist : List Bar := List.replicate 20 zvBar

/-- 5 rows: too short for any indicator. -/
def shortBar : Bar := ⟨7, 7, 7, 7, 1⟩

def shortHist : List Bar := List.replicate 5 shortBar

/-- Metadata with a strongly negative earnings growth. -/
def infoVeto : Info := ⟨some 5, some 100, some (-(1/10)), none⟩

/-- Benign metadata: both targets present, positive growth. -/
def infoPlain : Info := ⟨some 1, some 100, some (1/10), none⟩

/-- Metadata with a low target but no high target. -/
def infoNoHigh : Info := ⟨some 5, none, some (1/10), none⟩

/-! ### Access and slice lemmas -/

theorem getD_range_map {α : Type} (f : ℕ → α) {n i : ℕ} (h : i < n) (d : α) :
    (((List.range n).map f).getD i d) = f i := by
  rw [List.getD_eq_getElem _ _ (by simpa using h)]
  simp

theorem getD_map {α β : Type} (f : α → β) (l : List α) {i : ℕ} (h : i < l.length)
    (d : β) (d' : α) : (l.map f).getD i d = f (l.getD i d') := by
  rw [List.getD_eq_getElem _ _ (by simpa using h), List.getD_eq_getElem _ _ h]
  simp

theorem getD_mem {α : Type} (l : List α) {i : ℕ} (h : i < l.length) (d : α) :
    l.getD i d ∈ l := by
  rw [List.getD_eq_getElem _ _ h]
  exact List.getElem_mem h

theorem length_posFlow (bars : List Bar) : (posFlow bars).length = bars.length := by
  simp [posFlow]

theorem length_negFlow (bars : List Bar) : (negFlow bars).length = bars.length := by
  simp [negFlow]

theorem length_rollingSum (w : ℕ) (xs : List ℚ) : (rollingSum w xs).length = xs.length := by
  simp [rollingSum]

theorem rollingSum_getD (w : ℕ) (xs : List ℚ) {i : ℕ} (h : i < xs.length) :
    (rollingSum w xs).getD i none = windowSum w xs i :=
  getD_range_map _ h _

theorem mfiList_getD (bars : List Bar) {i : ℕ} (h : i < bars.length) :
    (mfiList bars).getD i none = mfiCell bars i :=
  getD_range_map _ h _

theorem vwapList_getD (bars : List Bar) {i : ℕ} (h : i < bars.length) :
    (vwapList bars).getD i none = vwapCell bars i :=
  getD_range_map _ h _

theorem windowSum_eq (w : ℕ) (xs : List ℚ) {i : ℕ} (h : w ≤ i + 1) :
    windowSum w xs i = some (((xs.drop (i + 1 - w)).take w).sum) := by
  simp [windowSum, Nat.not_lt.mpr h]

theorem slice_subset (xs : List ℚ) (a b : ℕ) {x : ℚ} (h : x ∈ (xs.drop a).take b) :
    x ∈ xs :=
  List.drop_subset a xs (List.take_subset b _ h)

theorem windowSum_zero (w : ℕ) (xs : List ℚ) (hxs : ∀ x ∈ xs, x = 0) {i : ℕ}
    (h : w ≤ i + 1) : windowSum w xs i = some 0 := by
  rw [windowSum_eq w xs h]
  exact congrArg some (List.sum_eq_zero fun x hx => hxs x (slice_subset xs _ _ hx))

theorem windowSum_nonneg (w : ℕ) (xs : List ℚ) (hxs : ∀ x ∈ xs, 0 ≤ x) {i : ℕ}
    (h : w ≤ i + 1) {s : ℚ} (hs : windowSum w xs i = some s) : 0 ≤ s := by
  rw [windowSum_eq w xs h] at hs
  obtain rfl : _ = s := Option.some_injective _ hs
  exact List.sum_nonneg fun x hx => hxs x (slice_subset xs _ _ hx)

/-- The row-`i` entry belongs to the trailing `w`-window slice that ends at
row `i` (as its last element). -/
theorem getD_mem_slice (xs : List ℚ) {w i : ℕ} (hw : 0 < w) (h1 : w ≤ i + 1)
    (h2 : i < xs.length) : xs.getD i 0 ∈ (xs.drop (i + 1 - w)).take w := by
  have ha : (i + 1 - w) + (w - 1) = i := by omega
  have hq : ((xs.drop (i + 1 - w)).take w)[w - 1]? = some (xs.getD i 0) := by
    rw [List.getElem?_take, if_pos (by omega), List.getElem?_drop, ha,
      List.getD_eq_getElem _ _ h2, List.getElem?_eq_getElem h2]
  exact List.getElem?_mem hq

theorem tpOf_nonneg {b : Bar} (h : ValidBar b) : 0 ≤ tpOf b := by
  obtain ⟨h1, h2, h3, h4⟩ := h
  have hc : 0 ≤ b.Close := le_trans h3 (le_trans h2 (min_le_right _ _))
  have hl : 0 ≤ b.Low := h3
  have hh : 0 ≤ b.High := le_trans hc (le_trans (le_max_right _ _) h1)
  unfold tpOf
  positivity

theorem posFlow_nonneg (bars : List Bar) (hvalid : ∀ b ∈ bars, ValidBar b) :
    ∀ x ∈ posFlow bars, 0 ≤ x := by
  intro x hx
  simp only [posFlow, List.mem_map, List.mem_range] at hx
  obtain ⟨i, hi, rfl⟩ := hx
  split
  · exact le_refl 0
  · split
    · have hb : bars.getD i default ∈ bars := getD_mem bars hi default
      exact mul_nonneg (tpOf_nonneg (hvalid _ hb)) (hvalid _ hb).2.2.2
    · exact le_refl 0

theorem negFlow_nonneg (bars : List Bar) (hvalid : ∀ b ∈ bars, ValidBar b) :
    ∀ x ∈ negFlow bars, 0 ≤ x := by
  intro x hx
  simp only [negFlow, List.mem_map, List.mem_range] at hx
  obtain ⟨i, hi, rfl⟩ := hx
  split
  · exact le_refl 0
  · split
    · have hb : bars.getD i default ∈ bars := getD_mem bars hi default
      exact mul_nonneg (tpOf_nonneg (hvalid _ hb)) (hvalid _ hb).2.2.2
    · exact le_refl 0

/-! ### Claim theorems -/

/-- C2: for every integer score in [-10,10] and both price-vs-VWAP cases,
the verdict mapping produces exactly one of the four labels, and it is the
label selected by the stated priority order (score ≥ 6 → Strong Buy; else
3 ≤ score ≤ 5 with price above VWAP → Trend Buy; else 0 ≤ score ≤ 2 → Wait;
else Warning). -/
theorem C2_verdict_total_exclusive :
    ∀ s ∈ Finset.Icc (-10 : ℤ) 10, ∀ above : Bool,
      (["💎 強力買入 (Strong Buy)", "🚀 右側追擊 (Trend Buy)",
          "👀 觀望/等待 (Wait)", "⚠️ 風險警示 (Warning)"].count
            (verdictOf s above).verdict = 1) ∧
      (verdictOf s above).verdict = verdictSpec s above := by
  decide

/-- C2 witness: the mapping at score 0 with price below VWAP. -/
theorem C2_verdict_total_exclusive_witness :
    (["💎 強力買入 (Strong Buy)", "🚀 右側追擊 (Trend Buy)",
        "👀 觀望/等待 (Wait)", "⚠️ 風險警示 (Warning)"].count
          (verdictOf 0 false).verdict = 1) ∧
      (verdictOf 0 false).verdict = verdictSpec 0 false :=
  C2_verdict_total_exclusive 0 (by decide) false

/-- C7 counterexample: at final score 6 with current price ≤ VWAP the
mapping does not fall through to the "Wait" bucket — `score >= 6` is the first
branch of src/app.py line 190 and carries no price condition. -/
theorem C7_score6_fallthrough_cex :
    (verdictOf 6 false).verdict ≠ "👀 觀望/等待 (Wait)" := by
  decide

/-- C7 amended: a final score of 6 yields "Strong Buy" in both price-vs-VWAP
cases; it never falls through to a later band. -/
theorem C7_score6_strong_buy :
    (verdictOf 6 false).verdict = "💎 強力買入 (Strong Buy)" ∧
      (verdictOf 6 true).verdict = "💎 強力買入 (Strong Buy)" := by
  decide

/-- C4: a daily series with fewer than 20 rows (empty included) comes back
from the Indicator Engine unmodified with no derived columns and no failure,
and an empty series makes the Decision Engine return the terminal data-error
verdict with score 0 and an empty reason list. -/
theorem C4_insufficient_history (hist : List Bar) (h : hist.length < 20)
    (rt : List (Option ℚ)) (info : Info) :
    calculate_technical_indicators hist = ⟨hist, none⟩ ∧
    ∃ out, rainow_brain [] rt info = some out ∧
      out.verdict = "❌ 數據錯誤" ∧ out.score = 0 ∧ out.reasons = [] ∧
      out.data = none := by
  constructor
  · simp [calculate_technical_indicators, h]
  · exact ⟨⟨"❌ 數據錯誤", "red", 0, "無法取得歷史數據", [], none⟩,
      by simp [rainow_brain], rfl, rfl, rfl, rfl⟩

/-- C4 witness: one flat row, and the empty series. -/
theorem C4_insufficient_history_witness :
    calculate_technical_indicators [evenBar] = ⟨[evenBar], none⟩ ∧
    ∃ out, rainow_brain [] [] infoPlain = some out ∧
      out.verdict = "❌ 數據錯誤" ∧ out.score = 0 ∧ out.reasons = [] ∧
      out.data = none :=
  C4_insufficient_history [evenBar] (by simp) [] infoPlain

/-- C1: whenever the growth figure is below -0.05 the Decision Engine returns
the terminal veto verdict: label Avoid, score -99, the fixed value-trap
advice, exactly one reason carrying the growth figure — for every history,
intraday feed and metadata, i.e. regardless of valuation, VWAP and technical
inputs — and the echoed data still carries the current price, the VWAP and
MFI in use, the valuation band and both source labels. -/
theorem C1_growth_veto (hist : List Bar) (rt : List (Option ℚ)) (info : Info)
    (hne : hist ≠ []) (hg : growthOf info < -(1/20)) :
    ∃ out, rainow_brain hist rt info = some out ∧
      out.verdict = "☠️ 絕對迴避 (Avoid)" ∧
      out.score = -99 ∧
      out.advice = "業績預期衰退，基本面惡化，屬於價值陷阱。" ∧
      out.reasons = [Reason.negGrowth (growthOf info)] ∧
      out.data = some
        { price := currentPriceOf hist rt
          vwap := vwapUsed (calculate_technical_indicators hist) (latestOf hist).Close
          val_low := (valuationOf hist (currentPriceOf hist rt) info).low
          val_high := (valuationOf hist (currentPriceOf hist rt) info).high
          eps := growthOf info
          val_source := (valuationOf hist (currentPriceOf hist rt) info).source
          mfi := mfiUsed (calculate_technical_indicators hist)
          price_src := priceSourceOf rt } := by
  have hie : hist.isEmpty = false := by simpa using hne
  refine ⟨⟨"☠️ 絕對迴避 (Avoid)", "inverse", -99,
        "業績預期衰退，基本面惡化，屬於價值陷阱。",
        [Reason.negGrowth (growthOf info)], some (echoData hist rt info)⟩,
      ?_, rfl, rfl, rfl, rfl, ?_⟩
  · have hg2 : growthOf info < -20⁻¹ := by rwa [one_div] at hg
    simp [rainow_brain, hie, hg2]
  · simp [echoData]

/-- C1 witness: a one-row history, no intraday data, growth -0.10. -/
theorem C1_growth_veto_witness :
    ∃ out, rainow_brain [evenBar] [] infoVeto = some out ∧
      out.verdict = "☠️ 絕對迴避 (Avoid)" ∧
      out.score = -99 ∧
      out.advice = "業績預期衰退，基本面惡化，屬於價值陷阱。" ∧
      out.reasons = [Reason.negGrowth (growthOf infoVeto)] ∧
      out.data = some
        { price := currentPriceOf [evenBar] []
          vwap := vwapUsed (calculate_technical_indicators [evenBar]) (latestOf [evenBar]).Close
          val_low := (valuationOf [evenBar] (currentPriceOf [evenBar] []) infoVeto).low
          val_high := (valuationOf [evenBar] (currentPriceOf [evenBar] []) infoVeto).high
          eps := growthOf infoVeto
          val_source := (valuationOf [evenBar] (currentPriceOf [evenBar] []) infoVeto).source
          mfi := mfiUsed (calculate_technical_indicators [evenBar])
          price_src := priceSourceOf [] } :=
  C1_growth_veto [evenBar] [] infoVeto (by simp) (by norm_num [growthOf, infoVeto])

/-- C10: the moving-average fallback band is installed exactly when the low
analyst target is absent; when the low target is present the analyst band is
used unchanged, the absent high bound included — and then an evaluation that
survives the growth veto and does not price below the low target reaches the
comparison against the absent high bound and fails (the Python `TypeError`). -/
theorem C10_valuation_fallback (hist : List Bar) (rt : List (Option ℚ)) (info : Info)
    (hne : hist ≠ []) :
    (info.targetLowPrice = none →
      valuationOf hist (currentPriceOf hist rt) info =
        ⟨ma50Of hist (currentPriceOf hist rt) * (4/5),
          some (ma50Of hist (currentPriceOf hist rt) * (6/5)), "50日均線推估"⟩) ∧
    (∀ tl, info.targetLowPrice = some tl →
      valuationOf hist (currentPriceOf hist rt) info =
        ⟨tl, info.targetHighPrice, "華爾街分析師"⟩) ∧
    (∀ tl, info.targetLowPrice = some tl → info.targetHighPrice = none →
      ¬ growthOf info < -(1/20) → ¬ currentPriceOf hist rt < tl →
      rainow_brain hist rt info = none) := by
  have hie : hist.isEmpty = false := by simpa using hne
  refine ⟨fun h => by simp [valuationOf, h], fun tl h => by simp [valuationOf, h], ?_⟩
  intro tl hl hh hg hcp
  unfold rainow_brain
  rw [if_neg (by simp [hie]), if_neg hg]
  have hv : valScore (currentPriceOf hist rt)
      (valuationOf hist (currentPriceOf hist rt) info) = none := by
    simp only [valScore, valuationOf, hl]
    simp [hh, hcp]
  unfold scoredPath
  simp [hv]

theorem latestOf_replicate (n : ℕ) (b : Bar) (h : n ≠ 0) :
    latestOf (List.replicate n b) = b := by
  simp [latestOf, List.getLastD_eq_getLast?, List.getLast?_replicate, h]

/-- C3 counterexample: on a 5-row history (derived columns absent entirely)
whose most recent Close is 7, the VWAP value the scoring rules use — echoed as
`data.vwap` — is the `.get` default 0, not the substituted Close 7. -/
theorem C3_short_series_cex :
    shortHist.length < 20 ∧ (latestOf shortHist).Close = 7 ∧
    (rainow_brain shortHist [] infoPlain).map (fun o => o.data.map VData.vwap) =
      some (some 0) ∧ (0 : ℚ) ≠ 7 := by
  refine ⟨by simp [shortHist],
    by show (latestOf (List.replicate 5 shortBar)).Close = 7
       rw [latestOf_replicate 5 shortBar (by decide)]
       rfl,
    ?_, by norm_num⟩
  norm_num [rainow_brain, shortHist, shortBar, infoPlain, growthOf, scoredPath, valScore,
    valuationOf, currentPriceOf, latestOf, vwapUsed, calculate_technical_indicators,
    vwapScore, techScore, lastHammer, lastEngulfing, lastMfiDiv, verdictOf, echoData,
    priceSourceOf, mfiUsed, List.getLastD_eq_getLast?, List.getLast?_replicate]

/-- C3 amended: at the start of evaluation the MFI default 50 is applied both
when the MFI column is absent and when its last cell is NaN; the Close
substitution for RollingVWAP10 is applied only when the column is present
with a NaN last cell — when the series is shorter than 20 bars and the
derived columns are absent entirely, the VWAP in use is the `.get` default 0,
not the Close. -/
theorem C3_defaults_amended (hist : List Bar) (close : ℚ) :
    (hist.length < 20 →
      mfiUsed (calculate_technical_indicators hist) = 50 ∧
      vwapUsed (calculate_technical_indicators hist) close = 0) ∧
    (∀ d, (calculate_technical_indicators hist).derived = some d →
      d.MFI.getLastD none = none →
      mfiUsed (calculate_technical_indicators hist) = 50) ∧
    (∀ d, (calculate_technical_indicators hist).derived = some d →
      d.Rolling_VWAP_10D.getLastD none = none →
      vwapUsed (calculate_technical_indicators hist) close = close) := by
  refine ⟨?_, ?_, ?_⟩
  · intro h
    constructor
    · simp [calculate_technical_indicators, h, mfiUsed]
    · simp [calculate_technical_indicators, h, vwapUsed]
  · intro d hd hm
    simp only [List.getLastD_eq_getLast?] at hm
    simp [mfiUsed, hd, hm]
  · intro d hd hv
    simp only [List.getLastD_eq_getLast?] at hv
    simp [vwapUsed, hd, hv]

/-- C3 amended witness: a one-row history, close 7. -/
theorem C3_defaults_amended_witness :
    mfiUsed (calculate_technical_indicators [evenBar]) = 50 ∧
      vwapUsed (calculate_technical_indicators [evenBar]) 7 = 0 :=
  (C3_defaults_amended [evenBar] 7).1 (by simp)

theorem isHammer_doji (b : Bar) (ho : b.Open = b.Close) (hu : b.Open < b.High) :
    isHammer b = false := by
  rw [ho] at hu
  simp only [isHammer, ho, sub_self, abs_zero, zero_mul, max_self, min_self]
  have h2 : ¬ (b.High - b.Close ≤ 0) := by
    rw [sub_nonpos]
    exact not_le.mpr hu
  simp [h2]

/-- C6 counterexample: a doji row (Open = Close) with no upper shadow makes
the Indicator Engine's IsHammer flag true, not false: its body is 0, so the
lower-shadow test `lower ≥ 2·0` and the upper-shadow test `0 ≤ 0.5·0` both
pass. -/
theorem C6_doji_hammer_cex :
    dojiBar.Open = dojiBar.Close ∧
    lastHammer (calculate_technical_indicators dojiHist) = true := by
  constructor
  · rfl
  · have h1 : isHammer dojiBar = true := by
      simp [isHammer, dojiBar]
      norm_num
    simp [lastHammer, calculate_technical_indicators, dojiHist, List.map_replicate, h1,
      List.getLastD_eq_getLast?, List.getLast?_replicate]

/-- C6 amended: a doji row whose High lies strictly above its Open (a nonzero
upper shadow) gets IsHammer = false from the Indicator Engine; only the
degenerate doji with High = Open = Close can pass the hammer test. -/
theorem C6_doji_amended (bars : List Bar) (h20 : 20 ≤ bars.length) {i : ℕ}
    (hi : i < bars.length)
    (ho : (bars.getD i default).Open = (bars.getD i default).Close)
    (hu : (bars.getD i default).Open < (bars.getD i default).High) :
    ((calculate_technical_indicators bars).derived.map
      (fun d => d.Is_Hammer.getD i false)) = some false := by
  have hlen : ¬ bars.length < 20 := Nat.not_lt.mpr h20
  simp only [calculate_technical_indicators, if_neg hlen, Option.map_some']
  rw [getD_map _ bars (by simpa using hi) false default, isHammer_doji _ ho hu]

/-- C6 amended witness: the doji-with-upper-shadow series at row 0. -/
theorem C6_doji_amended_witness :
    ((calculate_technical_indicators dojiUpHist).derived.map
      (fun d => d.Is_Hammer.getD 0 false)) = some false :=
  C6_doji_amended dojiUpHist (by simp [dojiUpHist]) (by simp [dojiUpHist])
    (by simp [dojiUpHist, dojiUpBar, List.getD_cons_zero])
    (by simp [dojiUpHist, dojiUpBar, List.getD_cons_zero]; norm_num)

theorem tp_mono_of_inc (bars : List Bar) (hinc : StrictIncTP bars) {j k : ℕ}
    (hjk : j ≤ k) (hk : k < bars.length) :
    tpOf (bars.getD j default) ≤ tpOf (bars.getD k default) := by
  revert hk
  induction k, hjk using Nat.le_induction with
  | base => intro _; exact le_refl _
  | succ n hn ih =>
    intro hk
    exact le_trans (ih (by omega)) (le_of_lt (hinc n (by omega)))

theorem negFlow_zero_of_inc (bars : List Bar) (hinc : StrictIncTP bars) :
    ∀ x ∈ negFlow bars, x = 0 := by
  intro x hx
  simp only [negFlow, List.mem_map, List.mem_range] at hx
  obtain ⟨j, hj, rfl⟩ := hx
  split
  · rfl
  · rename_i h0
    split
    · rename_i hlt
      exfalso
      have hj1 : j - 1 + 1 = j := Nat.succ_pred_eq_of_pos (Nat.pos_of_ne_zero h0)
      have := hinc (j - 1) (by omega)
      rw [hj1] at this
      exact absurd hlt (not_lt.mpr (le_of_lt this))
    · rfl

theorem posFlow_zero_of_dec (bars : List Bar) (hdec : StrictDecTP bars) :
    ∀ x ∈ posFlow bars, x = 0 := by
  intro x hx
  simp only [posFlow, List.mem_map, List.mem_range] at hx
  obtain ⟨j, hj, rfl⟩ := hx
  split
  · rfl
  · rename_i h0
    split
    · rename_i hlt
      exfalso
      have hj1 : j - 1 + 1 = j := Nat.succ_pred_eq_of_pos (Nat.pos_of_ne_zero h0)
      have := hdec (j - 1) (by omega)
      rw [hj1] at this
      exact absurd hlt (not_lt.mpr (le_of_lt this))
    · rfl

/-- C5: with constant positive volume and strictly rising typical price, once
the 14-bar window is full the negative flow sum is 0, the guard substitutes
denominator 1, and the MFI cell is the well-defined value 100 − 100/(1+P)
with positive flow sum P > 0, which comes within any ε of 100 once P is
large; with strictly falling typical price the MFI cell is exactly 0.  In
neither case does the cell hold an undefined ratio. -/
theorem C5_mfi_extremes (bars : List Bar) (V : ℚ) (hV : 0 < V)
    (hvol : ∀ b ∈ bars, b.Volume = V) (hvalid : ∀ b ∈ bars, ValidBar b)
    (i : ℕ) (h14 : 13 ≤ i) (hlen : i < bars.length) :
    (StrictIncTP bars →
      (rollingSum 14 (negFlow bars)).getD i none = some 0 ∧
      ∃ p : ℚ, 0 < p ∧ (rollingSum 14 (posFlow bars)).getD i none = some p ∧
        (mfiList bars).getD i none = some (100 - 100 / (1 + p)) ∧
        ∀ ε : ℚ, 0 < ε → 100 / ε ≤ p → 100 - ε < 100 - 100 / (1 + p)) ∧
    (StrictDecTP bars → (mfiList bars).getD i none = some 0) := by
  have hlenP : i < (posFlow bars).length := by rw [length_posFlow]; exact hlen
  have hlenN : i < (negFlow bars).length := by rw [length_negFlow]; exact hlen
  constructor
  · intro hinc
    have hneg : (rollingSum 14 (negFlow bars)).getD i none = some 0 := by
      rw [rollingSum_getD 14 (negFlow bars) hlenN]
      exact windowSum_zero 14 _ (negFlow_zero_of_inc bars hinc) (by omega)
    refine ⟨hneg, (((posFlow bars).drop (i + 1 - 14)).take 14).sum, ?_, ?_, ?_, ?_⟩
    · -- the positive-flow window sum is positive
      have hmem : (posFlow bars).getD i 0 ∈ ((posFlow bars).drop (i + 1 - 14)).take 14 :=
        getD_mem_slice (posFlow bars) (by norm_num) (by omega) hlenP
      have hnn : ∀ x ∈ ((posFlow bars).drop (i + 1 - 14)).take 14, 0 ≤ x :=
        fun x hx => posFlow_nonneg bars hvalid x (slice_subset _ _ _ hx)
      have hle := List.single_le_sum hnn _ hmem
      have hval : (posFlow bars).getD i 0 =
          tpOf (bars.getD i default) * (bars.getD i default).Volume := by
        rw [posFlow, getD_range_map _ hlen]
        have hi0 : i ≠ 0 := by omega
        have hj1 : i - 1 + 1 = i := Nat.succ_pred_eq_of_pos (Nat.pos_of_ne_zero hi0)
        have hcond := hinc (i - 1) (by omega)
        rw [hj1] at hcond
        rw [if_neg hi0, if_pos hcond]
      have htp : 0 < tpOf (bars.getD i default) := by
        have h0len : 0 < bars.length := by omega
        have h1len : 1 < bars.length := by omega
        have h0 : 0 ≤ tpOf (bars.getD 0 default) :=
          tpOf_nonneg (hvalid _ (getD_mem bars h0len default))
        have h01 := hinc 0 h1len
        have h1i := tp_mono_of_inc bars hinc (by omega : 1 ≤ i) hlen
        linarith
      have hvv : (bars.getD i default).Volume = V := hvol _ (getD_mem bars hlen default)
      have hpos : 0 < (posFlow bars).getD i 0 := by
        rw [hval, hvv]
        positivity
      linarith
    · rw [rollingSum_getD 14 (posFlow bars) hlenP]
      exact windowSum_eq 14 _ (by omega)
    · rw [mfiList_getD bars hlen]
      have hp : (rollingSum 14 (posFlow bars)).getD i none =
          some ((((posFlow bars).drop (i + 1 - 14)).take 14).sum) := by
        rw [rollingSum_getD 14 (posFlow bars) hlenP]
        exact windowSum_eq 14 _ (by omega)
      have hnn : ∀ x ∈ ((posFlow bars).drop (i + 1 - 14)).take 14, 0 ≤ x :=
        fun x hx => posFlow_nonneg bars hvalid x (slice_subset _ _ _ hx)
      have hps : 0 ≤ (((posFlow bars).drop (i + 1 - 14)).take 14).sum :=
        List.sum_nonneg hnn
      simp only [mfiCell, hp, hneg]
      norm_num
      intro habs
      linarith
    · intro ε hε h100
      have hnn : ∀ x ∈ ((posFlow bars).drop (i + 1 - 14)).take 14, 0 ≤ x :=
        fun x hx => posFlow_nonneg bars hvalid x (slice_subset _ _ _ hx)
      have hps : 0 ≤ (((posFlow bars).drop (i + 1 - 14)).take 14).sum :=
        List.sum_nonneg hnn
      set p := (((posFlow bars).drop (i + 1 - 14)).take 14).sum with hpdef
      have h1p : (0:ℚ) < 1 + p := by linarith
      have hlt : 100 / (1 + p) < ε := by
        rw [div_lt_iff₀ h1p]
        have h2 : 100 / ε < 1 + p := lt_of_le_of_lt h100 (by linarith)
        rw [div_lt_iff₀ hε] at h2
        linarith
      linarith
  · intro hdec
    rw [mfiList_getD bars hlen]
    have hp : (rollingSum 14 (posFlow bars)).getD i none = some 0 := by
      rw [rollingSum_getD 14 (posFlow bars) hlenP]
      exact windowSum_zero 14 _ (posFlow_zero_of_dec bars hdec) (by omega)
    have hn : (rollingSum 14 (negFlow bars)).getD i none =
        some ((((negFlow bars).drop (i + 1 - 14)).take 14).sum) := by
      rw [rollingSum_getD 14 (negFlow bars) hlenN]
      exact windowSum_eq 14 _ (by omega)
    simp only [mfiCell, hp, hn]
    norm_num [zero_div]

theorem tp_upBar (j : ℕ) : tpOf (upBar j) = (j : ℚ) + 1 := by
  simp only [tpOf, upBar]
  ring

theorem upHist_getD {j : ℕ} (h : j < 20) : upHist.getD j default = upBar j := by
  rw [upHist, getD_range_map _ h]

theorem upHist_inc : StrictIncTP upHist := by
  intro j hj
  have hlen : upHist.length = 20 := by simp [upHist]
  rw [hlen] at hj
  rw [upHist_getD (by omega), upHist_getD hj, tp_upBar, tp_upBar]
  push_cast
  linarith

/-- C5 witness: the strictly rising 20-row series with volume 1, at row 19;
its typical price rises strictly, so the increasing branch applies. -/
theorem C5_mfi_extremes_witness :
    StrictIncTP upHist ∧
    ((StrictIncTP upHist →
      (rollingSum 14 (negFlow upHist)).getD 19 none = some 0 ∧
      ∃ p : ℚ, 0 < p ∧ (rollingSum 14 (posFlow upHist)).getD 19 none = some p ∧
        (mfiList upHist).getD 19 none = some (100 - 100 / (1 + p)) ∧
        ∀ ε : ℚ, 0 < ε → 100 / ε ≤ p → 100 - ε < 100 - 100 / (1 + p)) ∧
    (StrictDecTP upHist → (mfiList upHist).getD 19 none = some 0)) :=
  ⟨upHist_inc,
    C5_mfi_extremes upHist 1 (by norm_num)
      (by
        intro b hb
        simp only [upHist, List.mem_map, List.mem_range] at hb
        obtain ⟨j, hj, rfl⟩ := hb
        rfl)
      (by
        intro b hb
        simp only [upHist, List.mem_map, List.mem_range] at hb
        obtain ⟨j, hj, rfl⟩ := hb
        refine ⟨by simp [upBar], by simp [upBar], ?_, by norm_num [upBar]⟩
        simp only [upBar]
        positivity)
      19 (by norm_num) (by simp [upHist])⟩

theorem sum_map_mul (r : ℚ) (l : List ℚ) : (l.map (fun v => r * v)).sum = r * l.sum := by
  induction l with
  | nil => simp
  | cons x xs ih => simp [ih, mul_add]

/-- C8 counterexample: on the constant-price-10 series whose volume is 0 on
every row, the full-window VWAP cell at row 19 is undefined (pandas `0/0`),
not the price 10. -/
theorem C8_zero_volume_cex :
    (∀ b ∈ zvHist, b.Open = 10 ∧ b.High = 10 ∧ b.Low = 10 ∧ b.Close = 10) ∧
    (vwapList zvHist).getD 19 none = none ∧
    (none : Option ℚ) ≠ some 10 := by
  refine ⟨?_, ?_, by simp⟩
  · intro b hb
    rw [zvHist, List.mem_replicate] at hb
    rw [hb.2]
    exact ⟨rfl, rfl, rfl, rfl⟩
  · rw [vwapList_getD zvHist (by simp [zvHist])]
    have hvol0 : ∀ x ∈ volList zvHist, x = 0 := by
      intro x hx
      simp only [volList, zvHist, List.mem_map, List.mem_replicate] at hx
      obtain ⟨b, ⟨_, rfl⟩, rfl⟩ := hx
      rfl
    have hw_vol : windowSum 10 (volList zvHist) 19 = some 0 :=
      windowSum_zero 10 _ hvol0 (by norm_num)
    have hw_pv : windowSum 10 (pvList zvHist) 19 =
        some ((((pvList zvHist).drop 10).take 10).sum) :=
      windowSum_eq 10 _ (by norm_num)
    simp only [vwapCell, hw_vol, hw_pv]
    simp

/-- C8 amended: on a constant-price-P series, once the 10-bar window is full
the VWAP cell equals P for every row whose trailing 10-bar volume sum is
nonzero (with an all-zero volume window the cell is undefined instead). -/
theorem C8_const_price_vwap (bars : List Bar) (P : ℚ)
    (hconst : ∀ b ∈ bars, b.Open = P ∧ b.High = P ∧ b.Low = P ∧ b.Close = P)
    (i : ℕ) (h10 : 9 ≤ i) (hlen : i < bars.length)
    (hvsum : (((volList bars).drop (i + 1 - 10)).take 10).sum ≠ 0) :
    (vwapList bars).getD i none = some P := by
  rw [vwapList_getD bars hlen]
  have hpv : pvList bars = (volList bars).map (fun v => P * v) := by
    rw [pvList, volList, List.map_map]
    apply List.map_congr_left
    intro b hb
    obtain ⟨h1, h2, h3, h4⟩ := hconst b hb
    simp only [Function.comp, tpOf, h2, h3, h4]
    ring
  have hslice : ((pvList bars).drop (i + 1 - 10)).take 10 =
      (((volList bars).drop (i + 1 - 10)).take 10).map (fun v => P * v) := by
    rw [hpv]
    simp
  have hw_pv : windowSum 10 (pvList bars) i =
      some (P * (((volList bars).drop (i + 1 - 10)).take 10).sum) := by
    rw [windowSum_eq 10 _ (by omega), hslice, sum_map_mul]
  have hw_vol : windowSum 10 (volList bars) i =
      some ((((volList bars).drop (i + 1 - 10)).take 10).sum) :=
    windowSum_eq 10 _ (by omega)
  simp only [vwapCell, hw_pv, hw_vol]
  rw [if_neg hvsum]
  rw [mul_div_assoc, div_self hvsum, mul_one]

/-- C8 amended witness: the flat price-10 volume-1 series at row 19. -/
theorem C8_const_price_vwap_witness :
    (vwapList evenHist).getD 19 none = some 10 :=
  C8_const_price_vwap evenHist 10
    (by
      intro b hb
      rw [evenHist, List.mem_replicate] at hb
      rw [hb.2]
      exact ⟨rfl, rfl, rfl, rfl⟩)
    19 (by norm_num) (by simp [evenHist])
    (by
      simp only [volList, evenHist, List.map_replicate]
      norm_num [List.drop_replicate, List.take_replicate, List.sum_replicate, evenBar])

/-- C9: under the OHLCV data-model invariant, every defined MFI cell the
Indicator Engine produces lies in [0, 100]: both flow sums are nonnegative,
the (possibly substituted) denominator is positive, so the ratio is
nonnegative and 100 − 100/(1 + ratio) falls in [0, 100). -/
theorem C9_mfi_bounded (bars : List Bar) (hvalid : ∀ b ∈ bars, ValidBar b)
    (i : ℕ) (m : ℚ) (h : (mfiList bars).getD i none = some m) :
    0 ≤ m ∧ m ≤ 100 := by
  by_cases hi : i < bars.length
  case neg =>
    exfalso
    rw [List.getD_eq_default] at h
    · exact Option.noConfusion h
    · simp [mfiList]
      omega
  rw [mfiList_getD bars hi] at h
  rcases Nat.lt_or_ge (i + 1) 14 with h14 | h14
  · exfalso
    have hp : (rollingSum 14 (posFlow bars)).getD i none = none := by
      rw [rollingSum_getD 14 (posFlow bars) (by rw [length_posFlow]; exact hi)]
      simp [windowSum, h14]
    rw [mfiCell, hp] at h
    exact Option.noConfusion h
  have hp : (rollingSum 14 (posFlow bars)).getD i none =
      some ((((posFlow bars).drop (i + 1 - 14)).take 14).sum) := by
    rw [rollingSum_getD 14 (posFlow bars) (by rw [length_posFlow]; exact hi)]
    exact windowSum_eq 14 _ h14
  have hn : (rollingSum 14 (negFlow bars)).getD i none =
      some ((((negFlow bars).drop (i + 1 - 14)).take 14).sum) := by
    rw [rollingSum_getD 14 (negFlow bars) (by rw [length_negFlow]; exact hi)]
    exact windowSum_eq 14 _ h14
  set p := (((posFlow bars).drop (i + 1 - 14)).take 14).sum with hpdef
  set n := (((negFlow bars).drop (i + 1 - 14)).take 14).sum with hndef
  have hp0 : 0 ≤ p :=
    List.sum_nonneg fun x hx => posFlow_nonneg bars hvalid x (slice_subset _ _ _ hx)
  have hn0 : 0 ≤ n :=
    List.sum_nonneg fun x hx => negFlow_nonneg bars hvalid x (slice_subset _ _ _ hx)
  rw [mfiCell, hp, hn] at h
  simp only at h
  have hd0 : 0 < (if n = 0 then 1 else n) := by
    split
    · norm_num
    · rename_i hne
      exact lt_of_le_of_ne hn0 (Ne.symm hne)
  have hr0 : 0 ≤ p / (if n = 0 then 1 else n) := div_nonneg hp0 (le_of_lt hd0)
  set r := p / (if n = 0 then 1 else n) with hrdef
  have h1r : (0:ℚ) < 1 + r := by linarith
  rw [if_neg (by positivity)] at h
  obtain rfl : 100 - 100 / (1 + r) = m := Option.some_injective _ h
  have hb1 : 0 < 100 / (1 + r) := by positivity
  have hb2 : 100 / (1 + r) ≤ 100 := by
    rw [div_le_iff₀ h1r]
    nlinarith
  constructor <;> linarith

theorem flow_zero_of_constTP (bars : List Bar)
    (hc : ∀ j, j < bars.length → tpOf (bars.getD j default) = tpOf (bars.getD 0 default)) :
    (∀ x ∈ posFlow bars, x = 0) ∧ (∀ x ∈ negFlow bars, x = 0) := by
  constructor <;>
  · intro x hx
    simp only [posFlow, negFlow, List.mem_map, List.mem_range] at hx
    obtain ⟨j, hj, rfl⟩ := hx
    split
    · rfl
    · rename_i h0
      split
      · rename_i hlt
        exfalso
        rw [hc j hj, hc (j - 1) (by omega)] at hlt
        exact lt_irrefl _ hlt
      · rfl

theorem mfi_evenHist_19 : (mfiList evenHist).getD 19 none = some 0 := by
  have hlen : (19:ℕ) < evenHist.length := by simp [evenHist]
  have hc : ∀ j, j < evenHist.length →
      tpOf (evenHist.getD j default) = tpOf (evenHist.getD 0 default) := by
    intro j hj
    simp only [evenHist] at hj ⊢
    rw [List.getD_eq_getElem _ _ (by simpa using hj),
      List.getD_eq_getElem _ _ (by simp), List.getElem_replicate, List.getElem_replicate]
  obtain ⟨hpz, hnz⟩ := flow_zero_of_constTP evenHist hc
  rw [mfiList_getD evenHist hlen]
  have hp : (rollingSum 14 (posFlow evenHist)).getD 19 none = some 0 := by
    rw [rollingSum_getD 14 _ (by rw [length_posFlow]; exact hlen)]
    exact windowSum_zero 14 _ hpz (by norm_num)
  have hn : (rollingSum 14 (negFlow evenHist)).getD 19 none = some 0 := by
    rw [rollingSum_getD 14 _ (by rw [length_negFlow]; exact hlen)]
    exact windowSum_zero 14 _ hnz (by norm_num)
  rw [mfiCell, hp, hn]
  norm_num

/-- C9 witness: the flat valid series, whose row-19 MFI cell is 0. -/
theorem C9_mfi_bounded_witness : (0:ℚ) ≤ 0 ∧ (0:ℚ) ≤ 100 :=
  C9_mfi_bounded evenHist
    (by
      intro b hb
      rw [evenHist, List.mem_replicate] at hb
      rw [hb.2]
      exact ⟨by norm_num [evenBar], by norm_num [evenBar], by norm_num [evenBar],
        by norm_num [evenBar]⟩)
    19 0 mfi_evenHist_19

/-- C10 witness: low target 5, no high target, growth 0.10, price 10 — the
evaluation reaches the comparison against the absent high bound and fails. -/
theorem C10_valuation_fallback_witness :
    rainow_brain [evenBar] [] infoNoHigh = none :=
  (C10_valuation_fallback [evenBar] [] infoNoHigh (by simp)).2.2 5 rfl rfl
    (by norm_num [growthOf, infoNoHigh])
    (by norm_num [currentPriceOf, latestOf, evenBar])
